import Mathlib

/-
Verification of the rendezvous protocol behaviour
(src/protocols/rendezvous/src/behaviour.rs) against its natural-language
specification.

The Rust `Rendezvous` struct holds a `VecDeque` of pending
`NetworkBehaviourAction`s and a `HashMap<String, HashSet<Registration>>` of
registrations.  We embed the `VecDeque` as a `List` (push_back = append,
pop_front = head), the `HashMap` as an association list with unique keys,
and the `HashSet<Registration>` as a list of registrations in which identity
is the registration's peer: behaviour.rs calls `registrations.contains(&peer_id)`
and `registrations.remove(&peer_id)`, which require
`Registration : Borrow<PeerId>` with `Hash`/`Eq` agreeing on the borrowed
form, i.e. two registrations in a bucket are equal exactly when their peers
are equal.  Rust's `HashSet::insert` keeps the existing element when an
equal one is present; `hsInsert` mirrors that.

`PeerId` and the authenticated peer record are opaque comparable values and
are embedded as natural numbers.
-/

namespace RendezvousProto

/-- PeerIdentity: an opaque, comparable, hashable identity (libp2p PeerId). -/
abbrev PeerId : Type := Nat

/-- AuthenticatedPeerRecord: an opaque signed blob, comparable by value. -/
abbrev Record : Type := Nat

/-- Modelled from the spec: `ErrorCode` is defined in codec.rs, which is not
under src/; spec section 3 enumerates its values. -/
inductive ErrorCode where
  | InvalidNamespace
  | InvalidRecord
  | InvalidTtl
  | NotAuthorized
  | Unavailable
  | Internal
deriving DecidableEq

/-- Modelled from the spec: the `Registration` struct lives in codec.rs, which
is not under src/.  Spec section 3 gives its fields namespace, peer, record and
an optional ttl (a request may omit it, in which case a default is applied).
behaviour.rs accesses `.namespace`, `.effective_ttl()` and, through the
`HashSet`, its peer identity. -/
structure Registration where
  namespace_ : String
  peer : PeerId
  record : Record
  ttl : Option Int
deriving DecidableEq

/-- Modelled from the spec: the default ttl applied by codec.rs when a request
omits the ttl (spec section 3: a request may omit it, in which case a default
is applied). -/
def defaultTtl : Int := 7200

/-- Modelled from the spec: `effective_ttl` (called by behaviour.rs line 125,
defined in codec.rs which is not under src/) is the requested ttl, or the
default when the request omitted it. -/
def Registration.effective_ttl (r : Registration) : Int :=
  r.ttl.getD defaultTtl

/-- Wire messages, after codec decoding, exactly the variants matched by
`Rendezvous::inject_event` in behaviour.rs lines 123-228. -/
inductive Message where
  | Register (new_reggo : Registration)
  | SuccessfullyRegistered (ttl : Int)
  | FailedToRegister (error : ErrorCode)
  | Unregister (ns : String)
  | Discover (ns : Option String)
  | DiscoverResponse (regs : List Registration)
  | FailedToDiscover (error : ErrorCode)
deriving DecidableEq

/-- Handler input, the payloads behaviour.rs wraps into
`NetworkBehaviourAction::NotifyHandler` (crate::handler::Input). -/
inductive Input where
  | RegisterRequest (ns : String) (ttl : Option Int) (record : Record)
  | UnregisterRequest (ns : String)
  | DiscoverRequest (ns : Option String)
  | RegisterResponse (ttl : Int) (message : Message)
  | DiscoverResponse (regs : List Registration)
deriving DecidableEq

/-- Event enum of behaviour.rs lines 61-93. -/
inductive Event where
  | Discovered (rendezvous_node : PeerId) (ns : List Registration)
  | FailedToDiscover (rendezvous_node : PeerId) (err_code : ErrorCode)
  | RegisteredWithRendezvousNode (rendezvous_node : PeerId) (ns : String) (ttl : Int)
  | FailedToRegisterWithRendezvousNode (rendezvous_node : PeerId) (ns : String)
      (err_code : ErrorCode)
  | DeclinedRegisterRequest (peer : PeerId) (ns : String)
  | PeerRegistered (peer_id : PeerId) (ns : String)
  | PeerUnregistered (peer_id : PeerId) (ns : String)
deriving DecidableEq

/-- NetworkBehaviourAction, restricted to the two variants behaviour.rs pushes:
NotifyHandler (with `NotifyHandler::Any`, dropped as a constant) and
GenerateEvent. -/
inductive Action where
  | NotifyHandler (peer_id : PeerId) (event : Input)
  | GenerateEvent (event : Event)
deriving DecidableEq

/-- Membership test of the per-namespace `HashSet<Registration>` borrowed at a
`PeerId` (`registrations.contains(&peer_id)`, behaviour.rs line 165): equality
is by peer. -/
def hsContains : List Registration → PeerId → Bool
  | [], _ => false
  | r :: rest, p => if r.peer = p then true else hsContains rest p

/-- Removal from the per-namespace `HashSet<Registration>` borrowed at a
`PeerId` (`registrations.remove(&peer_id)`, behaviour.rs line 166). -/
def hsRemove : List Registration → PeerId → List Registration
  | [], _ => []
  | r :: rest, p => if r.peer = p then hsRemove rest p else r :: hsRemove rest p

/-- Rust `HashSet::insert` (behaviour.rs line 130): when an equal element (same
peer) is already present the set is left unchanged and the existing element is
kept; otherwise the new element is added. -/
def hsInsert (set : List Registration) (r : Registration) : List Registration :=
  if hsContains set r.peer then set else set ++ [r]

/-- The registrations map `HashMap<String, HashSet<Registration>>`, embedded as
an association list with unique keys. -/
abbrev NsMap : Type := List (String × List Registration)

/-- HashMap lookup (`self.registrations.get_mut(&namespace)`). -/
def nsGet : NsMap → String → Option (List Registration)
  | [], _ => none
  | e :: rest, ns => if e.1 = ns then some e.2 else nsGet rest ns

/-- In-place replacement of the bucket of an existing key (the effect of
mutating through `get_mut`). -/
def nsSet : NsMap → String → List Registration → NsMap
  | [], _, _ => []
  | e :: rest, ns, v => if e.1 = ns then (e.1, v) :: rest else e :: nsSet rest ns v

/-- The `entry(ns).or_insert_with(HashSet::new).insert(r)` idiom of
behaviour.rs lines 127-130. -/
def nsInsert : NsMap → String → Registration → NsMap
  | [], ns, r => [(ns, hsInsert [] r)]
  | e :: rest, ns, r =>
      if e.1 = ns then (e.1, hsInsert e.2 r) :: rest else e :: nsInsert rest ns r

/-- Flattening of all buckets, the `iter().map(..).flatten().collect()` of
behaviour.rs lines 184-195 (iteration order of the HashMap is arbitrary; the
spec leaves ordering unspecified). -/
def allRegistrations (m : NsMap) : List Registration :=
  (m.map (fun e => e.2)).flatten

/-- The `Rendezvous` behaviour state (behaviour.rs lines 12-15): a FIFO queue
of pending actions and the registrations map. -/
structure Rendezvous where
  events : List Action
  registrations : NsMap
deriving DecidableEq

/-- `Rendezvous::new` (behaviour.rs lines 18-23): both fields default-empty. -/
def Rendezvous.new : Rendezvous :=
  { events := [], registrations := [] }

/-- `Rendezvous::register` (behaviour.rs lines 25-41): unconditionally
push_back a NotifyHandler action carrying a RegisterRequest with `ttl: None`.
The Rust signature takes no ttl argument and performs no validation. -/
def Rendezvous.register (s : Rendezvous) (ns : String) (rendezvous_node : PeerId)
    (record : Record) : Rendezvous :=
  { s with events := s.events ++
      [Action.NotifyHandler rendezvous_node (Input.RegisterRequest ns none record)] }

/-- `Rendezvous::unregister` (behaviour.rs lines 43-50). -/
def Rendezvous.unregister (s : Rendezvous) (ns : String) (rendezvous_node : PeerId) :
    Rendezvous :=
  { s with events := s.events ++
      [Action.NotifyHandler rendezvous_node (Input.UnregisterRequest ns)] }

/-- `Rendezvous::discover` (behaviour.rs lines 51-58). -/
def Rendezvous.discover (s : Rendezvous) (ns : Option String) (rendezvous_node : PeerId) :
    Rendezvous :=
  { s with events := s.events ++
      [Action.NotifyHandler rendezvous_node (Input.DiscoverRequest ns)] }

/-- `inject_connected` (behaviour.rs lines 107-110): only a debug log, no state
change. -/
def Rendezvous.inject_connected (s : Rendezvous) (_peer_id : PeerId) : Rendezvous := s

/-- `inject_disconnected` (behaviour.rs lines 112-115): the body is only a
debug log (with the comment asking whether anything is needed), so the state is
unchanged. -/
def Rendezvous.inject_disconnected (s : Rendezvous) (_peer_id : PeerId) : Rendezvous := s

/-- `Rendezvous::inject_event` (behaviour.rs lines 117-229), the inbound
message handler.  The `ConnectionId` argument is unused in the source and
dropped here. -/
def Rendezvous.inject_event (s : Rendezvous) (peer_id : PeerId) (msg : Message) :
    Rendezvous :=
  match msg with
  | Message.Register new_reggo =>
      let ttl := new_reggo.effective_ttl
      { events := s.events ++ [Action.NotifyHandler peer_id
          (Input.RegisterResponse ttl (Message.SuccessfullyRegistered ttl))],
        registrations := nsInsert s.registrations new_reggo.namespace_ new_reggo }
  | Message.SuccessfullyRegistered ttl =>
      { s with events := s.events ++ [Action.GenerateEvent
          (Event.RegisteredWithRendezvousNode peer_id "" ttl)] }
  | Message.FailedToRegister error =>
      { s with events := s.events ++ [Action.GenerateEvent
          (Event.FailedToRegisterWithRendezvousNode peer_id "" error)] }
  | Message.Unregister ns =>
      match nsGet s.registrations ns with
      | some regs =>
          if hsContains regs peer_id then
            { s with registrations := nsSet s.registrations ns (hsRemove regs peer_id) }
          else s
      | none => s
  | Message.Discover ons =>
      let s1 : Rendezvous :=
        match ons with
        | some ns =>
            match nsGet s.registrations ns with
            | some peers =>
                { s with events := s.events ++
                    [Action.NotifyHandler peer_id (Input.DiscoverResponse peers)] }
            | none => s
        | none =>
            { s with events := s.events ++ [Action.NotifyHandler peer_id
                (Input.DiscoverResponse (allRegistrations s.registrations))] }
      { s1 with events := s1.events ++
          [Action.NotifyHandler peer_id (Input.DiscoverResponse [])] }
  | Message.DiscoverResponse regs =>
      { s with events := s.events ++
          [Action.GenerateEvent (Event.Discovered peer_id regs)] }
  | Message.FailedToDiscover error =>
      { s with events := s.events ++
          [Action.GenerateEvent (Event.FailedToDiscover peer_id error)] }

/-- `Rendezvous::poll` (behaviour.rs lines 231-246): pop_front of the queue,
returning Ready with the front action, or Pending (here `none`) leaving the
state unchanged. -/
def Rendezvous.poll (s : Rendezvous) : Option Action × Rendezvous :=
  match s.events with
  | [] => (none, s)
  | e :: rest => (some e, { s with events := rest })

/-- Repeated polling of the queue until it is empty: the host loop around
`poll`.  Written by structural recursion on the queue; the theorem
`poll_yields_fifo_exactly_once` ties each step to `Rendezvous.poll`. -/
def drainEvents : List Action → NsMap → List Action × Rendezvous
  | [], regs => ([], { events := [], registrations := regs })
  | e :: rest, regs =>
      let d := drainEvents rest regs
      (e :: d.1, d.2)

/-- Collect every pending action by polling until Pending. -/
def Rendezvous.drain (s : Rendezvous) : List Action × Rendezvous :=
  drainEvents s.events s.registrations

/-! Helper lemmas about the map and set embeddings. -/

/-- Replacing the bucket of a key that is present makes a later lookup of that
key return the new bucket. -/
theorem nsGet_nsSet (ns : String) (v : List Registration) :
    ∀ m : NsMap, (∃ regs, nsGet m ns = some regs) →
      nsGet (nsSet m ns v) ns = some v := by
  intro m
  induction m with
  | nil => intro h; obtain ⟨regs, h⟩ := h; simp [nsGet] at h
  | cons e rest ih =>
      intro h
      by_cases he : e.1 = ns
      · simp [nsSet, nsGet, he]
      · obtain ⟨regs, hg⟩ := h
        simp only [nsGet, he, if_false] at hg
        simp only [nsSet, he, if_false, nsGet]
        exact ih ⟨regs, hg⟩

/-- Every element surviving `hsRemove set p` has a peer different from `p`. -/
theorem hsRemove_peer_ne (p : PeerId) (r : Registration) :
    ∀ set : List Registration, r ∈ hsRemove set p → r.peer ≠ p := by
  intro set
  induction set with
  | nil => intro h; simp [hsRemove] at h
  | cons x rest ih =>
      intro h
      by_cases hx : x.peer = p
      · simp only [hsRemove, hx, if_true] at h
        exact ih h
      · simp only [hsRemove, hx, if_false, List.mem_cons] at h
        rcases h with h | h
        · subst h; exact hx
        · exact ih h

/-- When `hsContains set p` is false, no element of the set has peer `p`. -/
theorem hsContains_false_peer_ne (p : PeerId) (r : Registration) :
    ∀ set : List Registration, hsContains set p = false → r ∈ set → r.peer ≠ p := by
  intro set
  induction set with
  | nil => intro _ hr; simp at hr
  | cons x rest ih =>
      intro h hr
      by_cases hx : x.peer = p
      · simp [hsContains, hx] at h
      · simp only [hsContains, hx, if_false] at h
        rcases List.mem_cons.mp hr with h1 | h1
        · subst h1; exact hx
        · exact ih h h1

/-- Draining the queue yields exactly the queued actions in order, emptying the
queue and preserving the registrations. -/
theorem drainEvents_spec (l : List Action) (regs : NsMap) :
    drainEvents l regs = (l, { events := [], registrations := regs }) := by
  induction l with
  | nil => rfl
  | cons e rest ih => simp [drainEvents, ih]

/-! Claim theorems. -/

/-- Claim C1: the claim says responses are correlated FIFO to outstanding
requests, with the Registered or FailedToRegister event carrying the namespace
of the request it answers.  The code has no correlator: after locally sending
a discover and then a register to peer 3, an inbound SuccessfullyRegistered
followed by a DiscoverResponse is handled purely by message content — the
first inbound response yields RegisteredWithRendezvousNode with the empty
namespace (not a resolution of the discover call), the second yields
Discovered (not a resolution of the register call), so the claim fails. -/
theorem responses_resolved_by_content_not_order :
    (((Rendezvous.new.discover (some "chat") 3).register "chat" 3 7).inject_event 3
        (Message.SuccessfullyRegistered 30)).inject_event 3
        (Message.DiscoverResponse []) =
      { events := [Action.NotifyHandler 3 (Input.DiscoverRequest (some "chat")),
                   Action.NotifyHandler 3 (Input.RegisterRequest "chat" none 7),
                   Action.GenerateEvent (Event.RegisteredWithRendezvousNode 3 "" 30),
                   Action.GenerateEvent (Event.Discovered 3 [])],
        registrations := [] } := rfl

/-- Claim C2: the claim says an accepted inbound RegisterRequest upserts the
store, enqueues RegisterResponse Ok and emits a PeerRegistered event.  The
code stores the registration and enqueues the response, but emits no
GenerateEvent at all — no PeerRegistered is ever produced. -/
theorem inbound_register_omits_peer_registered :
    Rendezvous.new.inject_event 5 (Message.Register ⟨"chat", 5, 7, some 30⟩) =
      { events := [Action.NotifyHandler 5
            (Input.RegisterResponse 30 (Message.SuccessfullyRegistered 30))],
        registrations := [("chat", [⟨"chat", 5, 7, some 30⟩])] } := rfl

/-- Claim C3 counterexample: the claim says a registration with ttl 1 is
absent from reads after its expiry.  The read path evaluates no clock: after
storing a registration with ttl 1, the discover read still returns it — and
since `inject_event` takes no time argument, the same response is produced at
every later time, including after expiry. -/
theorem expired_registration_still_listed :
    ((Rendezvous.new.inject_event 5 (Message.Register ⟨"chat", 5, 7, some 1⟩)).inject_event
        9 (Message.Discover (some "chat"))).events =
      [Action.NotifyHandler 5 (Input.RegisterResponse 1 (Message.SuccessfullyRegistered 1)),
       Action.NotifyHandler 9 (Input.DiscoverResponse [⟨"chat", 5, 7, some 1⟩]),
       Action.NotifyHandler 9 (Input.DiscoverResponse [])] := rfl

/-- Claim C3 amended: a stored registration is returned by every subsequent
discover read of its namespace regardless of its ttl (the store never filters
by expiry; reads take no current time), so it is present both before and after
its nominal expiry. -/
theorem stored_registration_listed_at_any_time (s : Rendezvous) (p : PeerId)
    (ns : String) (regs : List Registration)
    (h : nsGet s.registrations ns = some regs) :
    (s.inject_event p (Message.Discover (some ns))).events =
      s.events ++ [Action.NotifyHandler p (Input.DiscoverResponse regs),
                   Action.NotifyHandler p (Input.DiscoverResponse [])] := by
  simp [Rendezvous.inject_event, h]

/-- Witness for `stored_registration_listed_at_any_time` at a concrete state
holding one registration whose ttl is 1. -/
theorem stored_registration_listed_at_any_time_witness :
    nsGet [("chat", [(⟨"chat", 5, 7, some 1⟩ : Registration)])] "chat" =
        some [⟨"chat", 5, 7, some 1⟩] ∧
    (({ events := [], registrations := [("chat", [⟨"chat", 5, 7, some 1⟩])] } :
        Rendezvous).inject_event 9 (Message.Discover (some "chat"))).events =
      [Action.NotifyHandler 9 (Input.DiscoverResponse [⟨"chat", 5, 7, some 1⟩]),
       Action.NotifyHandler 9 (Input.DiscoverResponse [])] :=
  ⟨rfl, stored_registration_listed_at_any_time _ 9 "chat" _ rfl⟩

/-- Claim C4: the claim says a second accepted registration for the same
namespace and peer leaves exactly one entry carrying the second record.  Rust
HashSet insert keeps the existing element when an equal one (same peer) is
present: after registering record 1 and then record 2 for peer 5 under chat,
the store holds exactly one entry — but it is still the first registration
(record 1, ttl 30), not the second. -/
theorem reregistration_retains_old_record :
    ((Rendezvous.new.inject_event 5 (Message.Register ⟨"chat", 5, 1, some 30⟩)).inject_event
        5 (Message.Register ⟨"chat", 5, 2, some 40⟩)).registrations =
      [("chat", [⟨"chat", 5, 1, some 30⟩])] := rfl

/-- Claim C5 counterexample: the claim says register with an empty namespace
fails synchronously and enqueues nothing; the code performs no validation and
enqueues the RegisterRequest for the empty namespace. -/
theorem register_empty_namespace_enqueues :
    Rendezvous.new.register "" 3 7 =
      { events := [Action.NotifyHandler 3 (Input.RegisterRequest "" none 7)],
        registrations := [] } := rfl

/-- Claim C5 amended: the local register call performs no validation and
accepts no ttl argument; for every namespace (including the empty one) it
succeeds and enqueues exactly one RegisterRequest with ttl None to the target,
leaving the store unchanged. -/
theorem register_never_fails_always_enqueues (s : Rendezvous) (ns : String)
    (p : PeerId) (record : Record) :
    (s.register ns p record).events =
        s.events ++ [Action.NotifyHandler p (Input.RegisterRequest ns none record)] ∧
    (s.register ns p record).registrations = s.registrations := ⟨rfl, rfl⟩

/-- Claim C6: the claim says exactly one DiscoverResponse is enqueued per
inbound DiscoverRequest, with nothing after it.  For a namespace with one
entry the code enqueues the populated response and then, unconditionally, a
second empty DiscoverResponse. -/
theorem discover_enqueues_two_responses :
    ({ events := [], registrations := [("chat", [⟨"chat", 5, 7, some 30⟩])] } :
        Rendezvous).inject_event 9 (Message.Discover (some "chat")) =
      { events := [Action.NotifyHandler 9
            (Input.DiscoverResponse [⟨"chat", 5, 7, some 30⟩]),
          Action.NotifyHandler 9 (Input.DiscoverResponse [])],
        registrations := [("chat", [⟨"chat", 5, 7, some 30⟩])] } := rfl

/-- Claim C7 counterexample: the claim says a disconnect of peer 5 removes its
registrations, emits PeerUnregistered, and resolves its pending requests with
Unavailable failure events.  The code's disconnect handler is a no-op: with a
stored registration for peer 5 and a pending outbound request to peer 5, the
state after the disconnect is identical and no event is emitted. -/
theorem disconnect_leaves_state_unchanged :
    ({ events := [Action.NotifyHandler 5 (Input.RegisterRequest "chat" none 7)],
       registrations := [("chat", [⟨"chat", 5, 7, some 30⟩])] } :
        Rendezvous).inject_disconnected 5 =
      { events := [Action.NotifyHandler 5 (Input.RegisterRequest "chat" none 7)],
        registrations := [("chat", [⟨"chat", 5, 7, some 30⟩])] } := rfl

/-- Claim C7 amended: on disconnect of any peer the engine does nothing — the
registrations map and the action queue are unchanged and no failure event is
emitted (no correlator state exists to clear). -/
theorem disconnect_is_noop (s : Rendezvous) (p : PeerId) :
    (s.inject_disconnected p).registrations = s.registrations ∧
    (s.inject_disconnected p).events = s.events := ⟨rfl, rfl⟩

/-- Claim C8 counterexample: the claim says removing an existing entry emits a
PeerUnregistered event.  With an entry for (chat, peer 5) present, the inbound
Unregister removes it but enqueues no action at all — no event and also no
response. -/
theorem unregister_removes_without_event :
    ({ events := [], registrations := [("chat", [⟨"chat", 5, 7, some 30⟩])] } :
        Rendezvous).inject_event 5 (Message.Unregister "chat") =
      { events := [], registrations := [("chat", [])] } := rfl

/-- Claim C8 amended: an inbound UnregisterRequest removes the entry for
(namespace, sender) from the store and is otherwise silent: the action queue
is unchanged (no PeerUnregistered event and no response), and afterwards no
registration with the sender's peer remains under that namespace. -/
theorem unregister_silent_removal (s : Rendezvous) (p : PeerId) (ns : String) :
    (s.inject_event p (Message.Unregister ns)).events = s.events ∧
    ∀ r ∈ (nsGet (s.inject_event p (Message.Unregister ns)).registrations ns).getD [],
      r.peer ≠ p := by
  cases hg : nsGet s.registrations ns with
  | none =>
      refine ⟨by simp [Rendezvous.inject_event, hg], ?_⟩
      intro r hr
      simp only [Rendezvous.inject_event, hg] at hr
      simp [hg] at hr
  | some regs =>
      by_cases hc : hsContains regs p = true
      · refine ⟨by simp [Rendezvous.inject_event, hg, hc], ?_⟩
        intro r hr
        simp only [Rendezvous.inject_event, hg, hc, if_true] at hr
        rw [nsGet_nsSet ns (hsRemove regs p) s.registrations ⟨regs, hg⟩] at hr
        exact hsRemove_peer_ne p r regs (by simpa using hr)
      · have hc2 : hsContains regs p = false := by
          simpa using hc
        refine ⟨by simp [Rendezvous.inject_event, hg, hc2], ?_⟩
        intro r hr
        simp [Rendezvous.inject_event, hg, hc2, Option.getD_some] at hr
        exact hsContains_false_peer_ne p r regs hc2 hr

/-- Witness for `unregister_silent_removal` at a concrete state with one
registration for the sending peer. -/
theorem unregister_silent_removal_witness :
    (({ events := [Action.GenerateEvent (Event.PeerRegistered 5 "chat")],
        registrations := [("chat", [⟨"chat", 5, 7, some 30⟩])] } :
        Rendezvous).inject_event 5 (Message.Unregister "chat")).events =
      [Action.GenerateEvent (Event.PeerRegistered 5 "chat")] :=
  (unregister_silent_removal _ 5 "chat").1

/-- Claim C9: poll yields the queued actions in FIFO order, each exactly once:
on an empty queue it yields nothing and leaves the state unchanged, on a
nonempty queue it yields the front action and removes only it, and polling
until Pending (drain) yields exactly the queued actions in order, leaving the
queue empty and the registrations untouched, so subsequent calls resume from
the current queue state. -/
theorem poll_yields_fifo_exactly_once (a : Action) (rest : List Action)
    (regs : NsMap) (s : Rendezvous) :
    Rendezvous.poll { events := [], registrations := regs } =
        (none, { events := [], registrations := regs }) ∧
    Rendezvous.poll { events := a :: rest, registrations := regs } =
        (some a, { events := rest, registrations := regs }) ∧
    s.drain = (s.events, { events := [], registrations := s.registrations }) :=
  ⟨rfl, rfl, drainEvents_spec s.events s.registrations⟩

/-- Claim C10: the local API calls register, unregister and discover never
modify the registration store; each only appends exactly one action to the
outbound queue. -/
theorem local_calls_preserve_store (s : Rendezvous) (ns : String)
    (ons : Option String) (p : PeerId) (record : Record) :
    (s.register ns p record).registrations = s.registrations ∧
    (s.unregister ns p).registrations = s.registrations ∧
    (s.discover ons p).registrations = s.registrations ∧
    (s.register ns p record).events =
        s.events ++ [Action.NotifyHandler p (Input.RegisterRequest ns none record)] ∧
    (s.unregister ns p).events =
        s.events ++ [Action.NotifyHandler p (Input.UnregisterRequest ns)] ∧
    (s.discover ons p).events =
        s.events ++ [Action.NotifyHandler p (Input.DiscoverRequest ons)] :=
  ⟨rfl, rfl, rfl, rfl, rfl, rfl⟩

end RendezvousProto
